import Mathlib

/-!
GARCIA-BOOKLIST: the data layer of `App.js`.

A shallow embedding of the data layer of the book-list application
(`setupDatabase`, `fetchBooks`, `addBook`, `searchBooks` and the seed list
`popularBooks`) together with the part of the storage engine the four SQL
statements of the program rely on:

* `CREATE TABLE IF NOT EXISTS books (id INTEGER PRIMARY KEY AUTOINCREMENT, title TEXT)`
* `SELECT id FROM books` and `SELECT id, title FROM books`
* `INSERT INTO books (title) VALUES (?)`
* `SELECT id, title FROM books WHERE title LIKE ?`

Modelling conventions.

* The table is the list of its rows in rowid order, which is the order a scan
  of the table returns them in, together with the `sqlite_sequence` counter
  that `AUTOINCREMENT` maintains.  Row ids are natural numbers, the ids the
  engine assigns being positive.
* The limits of the engine that the statements can run into are part of the
  model, with the values the engine is built with by default: the largest
  rowid `2^63 - 1`, the largest string of `1000000000` bytes, and the longest
  `LIKE` pattern of `50000` bytes.  A statement that fails leaves the store as
  it was and rejects the promise of the call that issued it.
* A table that does not exist yet and an empty table are the same store:
  `setupDatabase` is the only operation that opens the handle, and it issues
  `CREATE TABLE IF NOT EXISTS` before any other statement.
* The module-level variable `db` is a flag of the program state: `false` for
  `null`, `true` for an open handle on `books.db`.
* The `async` functions are run to completion one at a time.
* Strings are sequences of Unicode scalar values; their size in bytes is the
  size of their UTF-8 encoding, the encoding the engine is handed.
-/

namespace BookList

/-! ## Data model -/

/-- A row of the table `books`. -/
structure Book where
  id : Nat
  title : String
  deriving DecidableEq, Repr

/-- The contents of `books.db`: the rows of `books` in rowid order and the
`sqlite_sequence` entry of the table (the largest rowid ever assigned). -/
structure Store where
  rows : List Book
  seq : Nat
  deriving DecidableEq, Repr

/-- The program state: the database file and the module-level handle `db`
(`let db = null;` is `db := false`). -/
structure App where
  disk : Store
  db : Bool
  deriving DecidableEq, Repr

/-- An element of the arrays built by `fetchBooks` and `searchBooks`, with the
three fields `id`, `title` and `index` of the object the callback returns. -/
structure Item where
  id : Nat
  title : String
  index : Nat
  deriving DecidableEq, Repr

/-- The seed list `popularBooks`, in its declared order. -/
def popularBooks : List String :=
  [ "To Kill a Mockingbird",
    "1984",
    "Pride and Prejudice",
    "The Great Gatsby",
    "Moby-Dick",
    "The Catcher in the Rye",
    "The Lord of the Rings",
    "The Hobbit",
    "Harry Potter and the Sorcerer's Stone",
    "The Da Vinci Code" ]

/-! ## The storage engine -/

/-- The errors a statement of the program can fail with. -/
inductive SqlError where
  /-- The code `SQLITE_FULL`, "database or disk is full": no rowid is left. -/
  | full
  /-- The code `SQLITE_TOOBIG`, "string or blob too big". -/
  | tooBig
  /-- The error "LIKE or GLOB pattern too complex". -/
  | likePattern
  deriving DecidableEq, Repr

/-- The largest rowid, `2^63 - 1`. -/
def maxRowid : Nat := 9223372036854775807

/-- The largest size in bytes of a string or of a row (`SQLITE_MAX_LENGTH`). -/
def maxLength : Nat := 1000000000

/-- The bytes a row of `books` takes besides its title: the header of the
record, which holds its own size, the type of the `id` column (stored as the
rowid) and the type and length of the title. -/
def recordOverhead : Nat := 7

/-- The largest size in bytes of a `LIKE` pattern
(`SQLITE_MAX_LIKE_PATTERN_LENGTH`). -/
def likePatternLimit : Nat := 50000

/-- The largest rowid among the rows (0 for an empty table). -/
def maxId : List Book → Nat
  | [] => 0
  | b :: bs => max b.id (maxId bs)

/-- The rowid `AUTOINCREMENT` gives to the next inserted row: one more than
the largest rowid that has ever existed in the table. -/
def Store.nextId (s : Store) : Nat :=
  max s.seq (maxId s.rows) + 1

/-- The statement `INSERT INTO books (title) VALUES (?)`.  Binding a title of
more than `maxLength` bytes fails; then the statement fails when the largest
rowid has been used, by the sequence counter or by a row; then it fails when
the row is larger than `maxLength` bytes. -/
def Store.insert (s : Store) (title : String) : Except SqlError Store :=
  if maxLength < title.utf8ByteSize then .error .tooBig
  else if maxRowid ≤ max s.seq (maxId s.rows) then .error .full
  else if maxLength < title.utf8ByteSize + recordOverhead then .error .tooBig
  else .ok { rows := s.rows ++ [{ id := s.nextId, title := title }], seq := s.nextId }

/-- Apply a predicate to a list and to each of its suffixes, longest first. -/
def anySuffix (f : List Char → Bool) : List Char → Bool
  | [] => f []
  | c :: s => f (c :: s) || anySuffix f s

/-- Matching of a pattern against a text, both already read, pattern first:
`%` matches any sequence of zero or more characters, `_` matches exactly one
character, any other character matches itself, the ASCII letters regardless of
case.  There is no escape character. -/
def likeMatch : List Char → List Char → Bool
  | [], s => s.isEmpty
  | c :: p, s =>
    if c = '%' then anySuffix (likeMatch p) s
    else
      match s with
      | [] => false
      | d :: t => (c = '_' || c.toLower = d.toLower) && likeMatch p t

/-- How the matcher reads a character: U+FFFE and U+FFFF are read as
U+FFFD. -/
def likeChar (c : Char) : Char :=
  if c.toNat = 0xFFFE ∨ c.toNat = 0xFFFF then Char.ofNat 0xFFFD else c

/-- How the matcher reads a string: up to its first U+0000, character by
character. -/
def likeText (s : List Char) : List Char :=
  (s.takeWhile fun c => c.toNat ≠ 0).map likeChar

/-- The expression `title LIKE pattern` on one row: an error when the pattern
is longer than `likePatternLimit` bytes, else the match of what is read of the
pattern against what is read of the title. -/
def like (title pattern : String) : Except SqlError Bool :=
  if likePatternLimit < pattern.utf8ByteSize then .error .likePattern
  else .ok (likeMatch (likeText pattern.data) (likeText title.data))

/-- The scan of `WHERE title LIKE pattern` over the rows: the expression is
evaluated on each row, and its error is the error of the statement. -/
def scanLike (pattern : String) : List Book → Except SqlError (List Book)
  | [] => .ok []
  | row :: rows =>
    match like row.title pattern with
    | .error e => .error e
    | .ok keep =>
      match scanLike pattern rows with
      | .error e => .error e
      | .ok found => .ok (if keep then row :: found else found)

/-- The statement `SELECT id, title FROM books WHERE title LIKE ?`.  Binding a
pattern of more than `maxLength` bytes fails. -/
def Store.selectLike (s : Store) (pattern : String) : Except SqlError (List Book) :=
  if maxLength < pattern.utf8ByteSize then .error .tooBig
  else scanLike pattern s.rows

/-! ## JavaScript helpers -/

/-- The characters `String.prototype.trim` removes: the WhiteSpace and
LineTerminator code points of ECMAScript. -/
def isJsWhiteSpace (c : Char) : Bool :=
  let n := c.toNat
  n = 0x09 || n = 0x0A || n = 0x0B || n = 0x0C || n = 0x0D || n = 0x20 ||
  n = 0xA0 || n = 0x1680 || (0x2000 ≤ n && n ≤ 0x200A) || n = 0x2028 ||
  n = 0x2029 || n = 0x202F || n = 0x205F || n = 0x3000 || n = 0xFEFF

/-- The method `String.prototype.trim`. -/
def jsTrim (s : String) : String :=
  ⟨(s.data.dropWhile isJsWhiteSpace).rdropWhile isJsWhiteSpace⟩

/-- The callback of `results.map`, which keeps `row.id` and `row.title` and
attaches `index + 1`, mapped over a result set. -/
def toItems (results : List Book) : List Item :=
  results.mapIdx fun index row => { id := row.id, title := row.title, index := index + 1 }

/-! ## The program -/

/-- The loop `for (const book of popularBooks) await db.runAsync(...)` over
the titles: the first insert that fails throws out of the loop, the rows
inserted before it stay.  The flag tells whether the loop ran to its end. -/
def insertEach : List String → Store → Bool × Store
  | [], s => (true, s)
  | title :: rest, s =>
    match s.insert title with
    | .error _ => (false, s)
    | .ok s' => insertEach rest s'

/-- The program state the function `setupDatabase` leaves: the handle is
opened, the table exists, and the seed titles are inserted, in order, when
`SELECT id FROM books` returns no row. -/
def setupDatabase (a : App) : App :=
  let results := a.disk.rows.map (·.id)
  if results.length = 0 then
    { disk := (insertEach popularBooks a.disk).2, db := true }
  else
    { disk := a.disk, db := true }

/-- Whether the promise of `setupDatabase` resolves, so that the `then`
callback of the Home screen runs `fetchBooks`. -/
def setupResolves (a : App) : Bool :=
  let results := a.disk.rows.map (·.id)
  if results.length = 0 then (insertEach popularBooks a.disk).1 else true

/-- The function `fetchBooks`. -/
def fetchBooks (a : App) : List Item :=
  if !a.db then []
  else toItems a.disk.rows

/-- How a call of `addBook` ends. -/
inductive AddOutcome where
  /-- `Alert.alert('Error', 'Book title cannot be empty!')` and return. -/
  | emptyTitleAlert
  /-- The row was inserted; the input is reset and the screen goes back. -/
  | inserted
  /-- The call `db.runAsync` on a `null` handle throws a `TypeError`. -/
  | nullHandle
  /-- The `INSERT` failed and `await db.runAsync` threw its error. -/
  | rejected (e : SqlError)
  deriving DecidableEq, Repr

/-- The function `addBook` on the input text `text`. -/
def addBook (text : String) (a : App) : AddOutcome × App :=
  let trimmedText := jsTrim text
  if trimmedText = "" then (.emptyTitleAlert, a)
  else if !a.db then (.nullHandle, a)
  else
    match a.disk.insert trimmedText with
    | .error e => (.rejected e, a)
    | .ok s => (.inserted, { a with disk := s })

/-- How a call of `searchBooks` ends: the list given to `setBooks`, the
`TypeError` of `db.getAllAsync` on a `null` handle, or the error of the
`SELECT`, thrown by `await db.getAllAsync` before `setBooks` is reached. -/
inductive SearchOutcome where
  | shown (books : List Item)
  | nullHandle
  | rejected (e : SqlError)
  deriving DecidableEq, Repr

/-- The function `searchBooks`. -/
def searchBooks (query : String) (a : App) : SearchOutcome :=
  if query = "" then .shown []
  else if !a.db then .nullHandle
  else
    match a.disk.selectLike ("%" ++ query ++ "%") with
    | .error e => .rejected e
    | .ok results => .shown (toItems results)

/-- A store that was just created: no row, no `sqlite_sequence` entry, and the
handle not opened yet. -/
def App.fresh : App :=
  { disk := { rows := [], seq := 0 }, db := false }

/-- An operation of the program. -/
inductive Op where
  | setupDatabase
  | addBook (text : String)
  | fetchBooks
  | searchBooks (query : String)
  deriving DecidableEq, Repr

/-- The program state after an operation.  `fetchBooks` and `searchBooks`
issue `SELECT` statements only and assign nothing but the state of their own
screen, so they hand the program state on as it is. -/
def Op.run : Op → App → App
  | .setupDatabase, a => BookList.setupDatabase a
  | .addBook text, a => (BookList.addBook text a).2
  | .fetchBooks, a => a
  | .searchBooks _, a => a

/-- The program state after a sequence of operations, first one first. -/
def runAll (ops : List Op) (a : App) : App :=
  ops.foldl (fun b op => op.run b) a

/-! ## Words of the specification -/

/-- The title contains the query as a substring: the characters of the query
occur in the title, consecutively and unchanged. -/
def Contains (title query : String) : Prop :=
  query.data <:+: title.data

instance (title query : String) : Decidable (Contains title query) :=
  inferInstanceAs (Decidable (query.data <:+: title.data))

/-- The title contains the query as a substring up to the case of the ASCII
letters. -/
def ContainsIgnoringCase (title query : String) : Prop :=
  query.data.map Char.toLower <:+: title.data.map Char.toLower

instance (title query : String) : Decidable (ContainsIgnoringCase title query) :=
  inferInstanceAs (Decidable (query.data.map Char.toLower <:+: title.data.map Char.toLower))

/-- The query has none of the two wildcard characters of `LIKE`. -/
def WildcardFree (query : String) : Prop :=
  '%' ∉ query.data ∧ '_' ∉ query.data

instance (query : String) : Decidable (WildcardFree query) :=
  inferInstanceAs (Decidable ('%' ∉ query.data ∧ '_' ∉ query.data))

/-- The string has none of the characters the matcher does not read as they
are: U+0000, where it stops reading, and U+FFFE and U+FFFF, which it reads as
U+FFFD. -/
def ReadAsIs (s : String) : Prop :=
  ∀ c ∈ s.data, c.toNat ≠ 0 ∧ c.toNat ≠ 0xFFFE ∧ c.toNat ≠ 0xFFFF

instance (s : String) : Decidable (ReadAsIs s) :=
  inferInstanceAs (Decidable (∀ c ∈ s.data, c.toNat ≠ 0 ∧ c.toNat ≠ 0xFFFE ∧ c.toNat ≠ 0xFFFF))

/-- The title as the matcher reads it: up to its first U+0000, with U+FFFE and
U+FFFF read as U+FFFD. -/
def asRead (title : String) : String :=
  ⟨likeText title.data⟩

/-- The rows are in rowid order: ids strictly ascending along the list, as in
the table they come from. -/
def Store.Ordered (s : Store) : Prop :=
  s.rows.Pairwise fun (b c : Book) => b.id < c.id

instance (s : Store) : Decidable s.Ordered :=
  inferInstanceAs (Decidable (s.rows.Pairwise fun (b c : Book) => b.id < c.id))

/-- Every stored title is non-empty after trimming. -/
def Store.TitlesNonBlank (s : Store) : Prop :=
  ∀ b ∈ s.rows, jsTrim b.title ≠ ""

/-! ## The storage engine: basic facts -/

theorem le_maxId {b : Book} {l : List Book} (h : b ∈ l) : b.id ≤ maxId l := by
  induction l with
  | nil => cases h
  | cons c cs ih =>
    rcases List.mem_cons.mp h with rfl | h
    · exact Nat.le_max_left _ _
    · exact Nat.le_trans (ih h) (Nat.le_max_right _ _)

theorem maxId_lt {l : List Book} {m : Nat} (hm : 0 < m) (h : ∀ b ∈ l, b.id < m) :
    maxId l < m := by
  induction l with
  | nil => exact hm
  | cons c cs ih =>
    have h₁ := h c (List.mem_cons_self _ _)
    have h₂ := ih (fun b hb => h b (List.mem_cons_of_mem _ hb))
    exact Nat.max_lt.mpr ⟨h₁, h₂⟩

theorem maxId_append (l : List Book) (b : Book) : maxId (l ++ [b]) = max (maxId l) b.id := by
  induction l with
  | nil => simp [maxId]
  | cons c cs ih => simp [maxId, ih, Nat.max_assoc]

theorem Store.lt_nextId (s : Store) {b : Book} (h : b ∈ s.rows) : b.id < s.nextId :=
  Nat.lt_succ_of_le (Nat.le_trans (le_maxId h) (Nat.le_max_right _ _))

theorem Store.seq_lt_nextId (s : Store) : s.seq < s.nextId :=
  Nat.lt_succ_of_le (Nat.le_max_left _ _)

/-- An insert that succeeds appends one row with the next id. -/
theorem Store.insert_ok {s s' : Store} {t : String} (h : s.insert t = .ok s') :
    s' = { rows := s.rows ++ [{ id := s.nextId, title := t }], seq := s.nextId } := by
  unfold Store.insert at h
  split at h
  · cases h
  · split at h
    · cases h
    · split at h
      · cases h
      · cases h
        rfl

/-- An insert succeeds when a rowid is left and the row is not too large. -/
theorem Store.insert_of_room {s : Store} {t : String}
    (hroom : max s.seq (maxId s.rows) < maxRowid)
    (hsize : t.utf8ByteSize + recordOverhead ≤ maxLength) :
    s.insert t = .ok { rows := s.rows ++ [{ id := s.nextId, title := t }], seq := s.nextId } := by
  unfold Store.insert
  rw [if_neg (by omega), if_neg (by omega), if_neg (by omega)]

/-- The larger of the sequence counter and of the largest id grows by one with
an insert. -/
theorem Store.top_insert {s s' : Store} {t : String} (h : s.insert t = .ok s') :
    max s'.seq (maxId s'.rows) = max s.seq (maxId s.rows) + 1 := by
  rw [Store.insert_ok h]
  simp only [maxId_append, Store.nextId]
  omega

@[simp] theorem length_toItems (l : List Book) : (toItems l).length = l.length := by
  simp [toItems]

theorem fetchBooks_of_db {a : App} (h : a.db = true) : fetchBooks a = toItems a.disk.rows := by
  simp [fetchBooks, h]

theorem map_book_toItems (l : List Book) :
    (toItems l).map (fun v => ({ id := v.id, title := v.title } : Book)) = l := by
  apply List.ext_getElem
  · simp
  · intro i h₁ h₂
    simp [toItems]

theorem map_title_toItems (l : List Book) :
    (toItems l).map (·.title) = l.map (·.title) := by
  apply List.ext_getElem
  · simp
  · intro i h₁ h₂
    simp [toItems]

theorem map_index_toItems (l : List Book) :
    (toItems l).map (·.index) = List.range' 1 l.length := by
  apply List.ext_getElem
  · simp
  · intro i h₁ h₂
    simp [toItems, Nat.add_comm]

/-! ## Trimming -/

theorem dropWhile_rdropWhile_dropWhile (p : Char → Bool) (l : List Char) :
    ((l.dropWhile p).rdropWhile p).dropWhile p = (l.dropWhile p).rdropWhile p := by
  generalize hm : l.dropWhile p = m
  have hm0 : m.dropWhile p = m := by rw [← hm]; exact List.dropWhile_idempotent p l
  obtain ⟨t, ht⟩ := List.rdropWhile_prefix p (l := m)
  cases hr : m.rdropWhile p with
  | nil => rfl
  | cons c r =>
    rw [hr] at ht
    by_cases hc : p c = true
    · exfalso
      rw [← ht, List.cons_append, List.dropWhile_cons_of_pos hc] at hm0
      have := (List.dropWhile_sublist p (l := r ++ t)).length_le
      rw [hm0] at this
      simp at this
    · rw [List.dropWhile_cons_of_neg hc]

theorem jsTrim_jsTrim (s : String) : jsTrim (jsTrim s) = jsTrim s := by
  unfold jsTrim
  simp only [dropWhile_rdropWhile_dropWhile, List.rdropWhile_idempotent]

theorem jsTrim_seed_ne_empty : ∀ t ∈ popularBooks, jsTrim t ≠ "" := by
  decide

theorem seed_size : ∀ t ∈ popularBooks, t.utf8ByteSize + recordOverhead ≤ maxLength := by
  decide

/-! ## The operations, case by case -/

/-- What `addBook` does to the program state: nothing, or one insert of the
trimmed text, which is not empty. -/
theorem addBook_state (text : String) (a : App) :
    (addBook text a).2 = a ∨
      ∃ s', jsTrim text ≠ "" ∧ a.disk.insert (jsTrim text) = .ok s' ∧
        (addBook text a).2 = { a with disk := s' } := by
  unfold addBook
  by_cases ht : jsTrim text = ""
  · left; simp [ht]
  · cases hdb : a.db
    · left; simp [ht, hdb]
    · cases hi : a.disk.insert (jsTrim text) with
      | error e => left; simp [ht, hdb, hi]
      | ok s' => right; exact ⟨s', ht, rfl, by simp [ht, hdb, hi]⟩

theorem addBook_of_room {a : App} {t : String} (hdb : a.db = true) (hne : jsTrim t ≠ "")
    (hroom : max a.disk.seq (maxId a.disk.rows) < maxRowid)
    (hsize : (jsTrim t).utf8ByteSize + recordOverhead ≤ maxLength) :
    addBook t a = (.inserted, { a with disk :=
      { rows := a.disk.rows ++ [{ id := a.disk.nextId, title := jsTrim t }],
        seq := a.disk.nextId } }) := by
  simp [addBook, hdb, hne, Store.insert_of_room hroom hsize]

theorem setupDatabase_of_empty {a : App} (h : a.disk.rows = []) :
    setupDatabase a = { disk := (insertEach popularBooks a.disk).2, db := true } := by
  simp [setupDatabase, h]

theorem setupDatabase_of_nonempty {a : App} (h : a.disk.rows ≠ []) :
    setupDatabase a = { disk := a.disk, db := true } := by
  simp [setupDatabase, h]

/-- A property of the store that every successful insert of one of the titles
keeps is kept by the seeding loop. -/
theorem insertEach_keeps (P : Store → Prop) (titles : List String)
    (hstep : ∀ (s s' : Store) (t : String), t ∈ titles → P s → s.insert t = .ok s' → P s')
    (s : Store) (h : P s) : P (insertEach titles s).2 := by
  induction titles generalizing s with
  | nil => exact h
  | cons t ts ih =>
    unfold insertEach
    cases hi : s.insert t with
    | error e => exact h
    | ok s' =>
      exact ih (fun u u' v hv => hstep u u' v (List.mem_cons_of_mem _ hv)) s'
        (hstep s s' t (List.mem_cons_self _ _) h hi)

/-- The seeding loop runs to its end when enough rowids are left and the
titles are not too large; the rows it adds carry the titles, in order. -/
theorem insertEach_of_room (titles : List String) (s : Store)
    (hsize : ∀ t ∈ titles, t.utf8ByteSize + recordOverhead ≤ maxLength)
    (hroom : max s.seq (maxId s.rows) + titles.length ≤ maxRowid) :
    (insertEach titles s).1 = true ∧
      ∃ added : List Book, (insertEach titles s).2.rows = s.rows ++ added ∧
        added.map (·.title) = titles := by
  induction titles generalizing s with
  | nil => exact ⟨rfl, [], by simp [insertEach], rfl⟩
  | cons t ts ih =>
    have hlen : (t :: ts).length = ts.length + 1 := rfl
    have hi := Store.insert_of_room (s := s) (t := t) (by omega)
      (hsize t (List.mem_cons_self _ _))
    have htop := Store.top_insert hi
    obtain ⟨h₁, added, h₂, h₃⟩ := ih _ (fun u hu => hsize u (List.mem_cons_of_mem _ hu))
      (by rw [htop]; omega)
    unfold insertEach
    rw [hi]
    refine ⟨h₁, { id := s.nextId, title := t } :: added, ?_, by simp [h₃]⟩
    simp only [h₂, List.append_assoc, List.singleton_append]

/-- A seeding loop that leaves the table empty has left the store as it was. -/
theorem insertEach_rows_nil (titles : List String) (s : Store)
    (h : (insertEach titles s).2.rows = []) : (insertEach titles s).2 = s := by
  cases titles with
  | nil => rfl
  | cons t ts =>
    unfold insertEach at h ⊢
    cases hi : s.insert t with
    | error e => rfl
    | ok s' =>
      exfalso
      rw [hi] at h
      have hp : s'.rows <+: (insertEach ts s').2.rows :=
        insertEach_keeps (fun u => s'.rows <+: u.rows) ts
          (fun u u' v _ hu hv => by
            rw [Store.insert_ok hv]
            exact hu.trans (List.prefix_append _ _))
          s' (List.prefix_refl _)
      simp only [] at h
      rw [h, List.prefix_nil, Store.insert_ok hi] at hp
      simp at hp

/-- A property of the store that every successful insert of a title with a
non-empty trim keeps is kept by every operation of the program. -/
theorem run_keeps (P : Store → Prop)
    (hstep : ∀ (s s' : Store) (t : String), jsTrim t ≠ "" → P s → s.insert t = .ok s' → P s')
    (hseed : ∀ t ∈ popularBooks, jsTrim t ≠ "")
    (op : Op) (a : App) (h : P a.disk) : P (op.run a).disk := by
  cases op with
  | setupDatabase =>
    show P (setupDatabase a).disk
    by_cases he : a.disk.rows = []
    · rw [setupDatabase_of_empty he]
      exact insertEach_keeps P popularBooks (fun s s' t ht => hstep s s' t (hseed t ht)) _ h
    · rw [setupDatabase_of_nonempty he]
      exact h
  | addBook text =>
    show P (addBook text a).2.disk
    rcases addBook_state text a with h₁ | ⟨s', hne, hi, h₁⟩
    · rw [h₁]; exact h
    · rw [h₁]
      exact hstep a.disk s' (jsTrim text) (by rw [jsTrim_jsTrim]; exact hne) h hi
  | fetchBooks => exact h
  | searchBooks q => exact h

/-! ## What the operations keep -/

theorem Store.insert_ordered {s s' : Store} {t : String} (h : s.Ordered)
    (hi : s.insert t = .ok s') : s'.Ordered := by
  rw [Store.insert_ok hi]
  unfold Store.Ordered at *
  rw [List.pairwise_append]
  refine ⟨h, List.pairwise_singleton _ _, fun b hb c hc => ?_⟩
  rw [List.mem_singleton.mp hc]
  exact s.lt_nextId hb

theorem Store.nextId_not_mem (s : Store) : s.nextId ∉ s.rows.map (·.id) := by
  intro h
  obtain ⟨b, hb, hid⟩ := List.mem_map.mp h
  have := s.lt_nextId hb
  omega

theorem Store.insert_nodup {s s' : Store} {t : String} (h : (s.rows.map (·.id)).Nodup)
    (hi : s.insert t = .ok s') : (s'.rows.map (·.id)).Nodup := by
  rw [Store.insert_ok hi, List.map_append, List.nodup_append]
  refine ⟨h, List.nodup_singleton _, ?_⟩
  intro x hx hy
  rw [List.map_singleton, List.mem_singleton] at hy
  have hx' : x = s.nextId := hy
  exact s.nextId_not_mem (hx' ▸ hx)

theorem Store.insert_titlesNonBlank {s s' : Store} {t : String} (h : s.TitlesNonBlank)
    (ht : jsTrim t ≠ "") (hi : s.insert t = .ok s') : s'.TitlesNonBlank := by
  rw [Store.insert_ok hi]
  intro b hb
  rw [List.mem_append, List.mem_singleton] at hb
  rcases hb with hb | rfl
  · exact h b hb
  · exact ht

theorem run_ordered (op : Op) {a : App} (h : a.disk.Ordered) : (op.run a).disk.Ordered :=
  run_keeps Store.Ordered (fun _ _ _ _ hs hi => Store.insert_ordered hs hi)
    jsTrim_seed_ne_empty op a h

/-- Every store the program reaches from the fresh store is in rowid order. -/
theorem runAll_ordered (ops : List Op) : (runAll ops App.fresh).disk.Ordered := by
  have h : ∀ a : App, a.disk.Ordered → (runAll ops a).disk.Ordered := by
    induction ops with
    | nil => exact fun _ h => h
    | cons op ops ih => exact fun a h => ih _ (run_ordered op h)
  exact h _ List.Pairwise.nil

theorem runAll_titlesNonBlank (ops : List Op) {a : App} (h : a.disk.TitlesNonBlank) :
    (runAll ops a).disk.TitlesNonBlank := by
  induction ops generalizing a with
  | nil => exact h
  | cons op ops ih =>
    exact ih (run_keeps Store.TitlesNonBlank
      (fun _ _ _ ht hs hi => Store.insert_titlesNonBlank hs ht hi) jsTrim_seed_ne_empty op a h)

/-- An `addBook` whose row would be too large is rejected and changes
nothing. -/
theorem addBook_tooBig (a : App) (t : String) (hdb : a.db = true) (hne : jsTrim t ≠ "")
    (hsize : maxLength < (jsTrim t).utf8ByteSize + recordOverhead) :
    (∃ e, (addBook t a).1 = .rejected e) ∧ (addBook t a).2 = a := by
  have hi : ∃ e, a.disk.insert (jsTrim t) = .error e := by
    unfold Store.insert
    by_cases h₁ : maxLength < (jsTrim t).utf8ByteSize
    · exact ⟨_, if_pos h₁⟩
    · rw [if_neg h₁]
      by_cases h₂ : maxRowid ≤ max a.disk.seq (maxId a.disk.rows)
      · exact ⟨_, if_pos h₂⟩
      · rw [if_neg h₂, if_pos hsize]
        exact ⟨_, rfl⟩
  obtain ⟨e, he⟩ := hi
  simp [addBook, hdb, hne, he]

/-! ## Matching with `LIKE` -/

theorem likeText_eq_self {l : List Char}
    (h : ∀ c ∈ l, c.toNat ≠ 0 ∧ c.toNat ≠ 0xFFFE ∧ c.toNat ≠ 0xFFFF) : likeText l = l := by
  unfold likeText
  have h₁ : (l.takeWhile fun c => decide (c.toNat ≠ 0)) = l :=
    List.takeWhile_eq_self_iff.mpr (fun c hc => by simpa using (h c hc).1)
  rw [h₁]
  have h₂ : ∀ c ∈ l, likeChar c = id c := by
    intro c hc
    have := h c hc
    simp [likeChar, this.2.1, this.2.2]
  rw [List.map_congr_left h₂, List.map_id]

theorem asRead_of_readAsIs {s : String} (h : ReadAsIs s) : asRead s = s := by
  unfold asRead
  rw [likeText_eq_self h]

theorem likeMatch_percent (t : List Char) : likeMatch ['%'] t = true := by
  have h : ∀ t : List Char, anySuffix (likeMatch []) t = true := by
    intro t
    induction t with
    | nil => rfl
    | cons c t ih => simp [anySuffix, ih]
  simpa [likeMatch] using h t

theorem likeMatch_prefix (q : List Char) (h₁ : '%' ∉ q) (h₂ : '_' ∉ q) (t : List Char) :
    likeMatch (q ++ ['%']) t = true ↔ q.map Char.toLower <+: t.map Char.toLower := by
  induction q generalizing t with
  | nil => simp [likeMatch_percent]
  | cons c q ih =>
    have hc₁ : c ≠ '%' := fun h => h₁ (h ▸ List.mem_cons_self _ _)
    have hc₂ : c ≠ '_' := fun h => h₂ (h ▸ List.mem_cons_self _ _)
    have hq₁ : '%' ∉ q := fun h => h₁ (List.mem_cons_of_mem _ h)
    have hq₂ : '_' ∉ q := fun h => h₂ (List.mem_cons_of_mem _ h)
    cases t with
    | nil => simp [likeMatch, hc₁]
    | cons d t =>
      simp [likeMatch, hc₁, hc₂, ih hq₁ hq₂ t]

theorem likeMatch_infix (q : List Char) (h₁ : '%' ∉ q) (h₂ : '_' ∉ q) (t : List Char) :
    likeMatch ('%' :: (q ++ ['%'])) t = true ↔ q.map Char.toLower <:+: t.map Char.toLower := by
  have h : ∀ t : List Char, anySuffix (likeMatch (q ++ ['%'])) t = true ↔
      q.map Char.toLower <:+: t.map Char.toLower := by
    intro t
    induction t with
    | nil =>
      rw [anySuffix, likeMatch_prefix q h₁ h₂]
      simp
    | cons d t ih =>
      rw [anySuffix, Bool.or_eq_true, likeMatch_prefix q h₁ h₂, ih, List.map_cons,
        List.infix_cons_iff]
  simpa [likeMatch] using h t

theorem pattern_data (query : String) :
    ("%" ++ query ++ "%").data = '%' :: (query.data ++ ['%']) := by
  simp [String.data_append]

theorem pattern_size (query : String) :
    ("%" ++ query ++ "%").utf8ByteSize = query.utf8ByteSize + 2 := by
  have h : ∀ s : String, s.utf8ByteSize = String.utf8Len s.data := fun _ => rfl
  have h₁ : Char.utf8Size '%' = 1 := by decide
  rw [h, h, pattern_data, String.utf8Len_cons, String.utf8Len_append, String.utf8Len_cons,
    String.utf8Len_nil, h₁]

/-- What is read of the pattern of a query that is read as it is: the
pattern. -/
theorem likeText_pattern {query : String} (h : ReadAsIs query) :
    likeText ("%" ++ query ++ "%").data = '%' :: (query.data ++ ['%']) := by
  rw [pattern_data]
  apply likeText_eq_self
  intro c hc
  rw [List.mem_cons, List.mem_append, List.mem_singleton] at hc
  rcases hc with rfl | hc | rfl
  · decide
  · exact h c hc
  · decide

/-- Within the pattern limit the scan is a filter of the rows. -/
theorem scanLike_of_limit {pattern : String} (h : pattern.utf8ByteSize ≤ likePatternLimit)
    (rows : List Book) :
    scanLike pattern rows = .ok (rows.filter fun row =>
      likeMatch (likeText pattern.data) (likeText row.title.data)) := by
  induction rows with
  | nil => rfl
  | cons row rows ih =>
    have hl : like row.title pattern =
        .ok (likeMatch (likeText pattern.data) (likeText row.title.data)) := by
      unfold like
      rw [if_neg (by omega)]
    unfold scanLike
    rw [hl, ih]
    cases hm : likeMatch (likeText pattern.data) (likeText row.title.data) <;>
      simp [List.filter_cons, hm]

theorem like_iff_containsIgnoringCase {query : String} (hw : WildcardFree query)
    (hr : ReadAsIs query) (title : String) :
    likeMatch (likeText ("%" ++ query ++ "%").data) (likeText title.data) = true ↔
      ContainsIgnoringCase (asRead title) query := by
  rw [likeText_pattern hr]
  exact likeMatch_infix query.data hw.1 hw.2 (likeText title.data)

/-! ## Long strings -/

/-- The string of `n` letters `a` takes `n` bytes. -/
theorem utf8Len_replicate (n : Nat) : String.utf8Len (List.replicate n 'a') = n := by
  induction n with
  | zero => rfl
  | succ k ih =>
    have h₁ : Char.utf8Size 'a' = 1 := by decide
    rw [List.replicate_succ, String.utf8Len_cons, ih, h₁]

theorem utf8ByteSize_replicate (n : Nat) :
    (String.mk (List.replicate n 'a')).utf8ByteSize = n :=
  utf8Len_replicate n

theorem replicate_ne_empty (n : Nat) : String.mk (List.replicate (n + 1) 'a') ≠ "" := by
  intro h
  have := congrArg String.data h
  simp [List.replicate_succ] at this

theorem jsTrim_replicate (n : Nat) :
    jsTrim (String.mk (List.replicate n 'a')) = String.mk (List.replicate n 'a') := by
  have hp : isJsWhiteSpace 'a' = false := by decide
  unfold jsTrim
  simp [List.rdropWhile, List.dropWhile_replicate, hp]

/-- A search whose pattern is over the pattern limit is rejected as soon as
the table has a row to match it against. -/
theorem searchBooks_long (a : App) (q : String) (hdb : a.db = true) (hq : q ≠ "")
    (hrows : a.disk.rows ≠ []) (hlen : likePatternLimit < q.utf8ByteSize + 2)
    (hbind : q.utf8ByteSize + 2 ≤ maxLength) :
    searchBooks q a = .rejected .likePattern := by
  have hsz := pattern_size q
  unfold searchBooks Store.selectLike
  rw [if_neg hq, hdb, if_neg (by simp), if_neg (by omega)]
  cases hr : a.disk.rows with
  | nil => exact absurd hr hrows
  | cons row rows =>
    have hl : like row.title ("%" ++ q ++ "%") = .error .likePattern := by
      unfold like
      rw [if_pos (by omega)]
    unfold scanLike
    rw [hl]

/-! ## Claims -/

/-- C1, as stated, fails.  The title "x" is non-empty and equal to its own
trim; on the store with one row and the sequence counter at the largest rowid
`addBook "x"` is rejected with `SQLITE_FULL` and `fetchBooks` lists the old row
only; on the fresh program state, whose handle is `null`, `addBook "x"` throws
and `fetchBooks` lists nothing.  The title of 999999994 letters `a` is
non-empty and equal to its own trim; on an open handle and an empty store
`addBook` with it is rejected, its row being too large, and `fetchBooks` lists
nothing. -/
theorem addBook_not_listed :
    (("x" ≠ "" ∧ jsTrim "x" = "x") ∧
      (addBook "x" ⟨⟨[⟨1, "a"⟩], 9223372036854775807⟩, true⟩
          = (.rejected .full, ⟨⟨[⟨1, "a"⟩], 9223372036854775807⟩, true⟩) ∧
        fetchBooks (addBook "x" ⟨⟨[⟨1, "a"⟩], 9223372036854775807⟩, true⟩).2
          = [⟨1, "a", 1⟩]) ∧
      (addBook "x" App.fresh = (.nullHandle, App.fresh) ∧
        fetchBooks (addBook "x" App.fresh).2 = [])) ∧
    ((String.mk (List.replicate 999999994 'a') ≠ "" ∧
        jsTrim (String.mk (List.replicate 999999994 'a'))
          = String.mk (List.replicate 999999994 'a')) ∧
      (∃ e, (addBook (String.mk (List.replicate 999999994 'a')) ⟨⟨[], 0⟩, true⟩).1
          = .rejected e) ∧
      fetchBooks (addBook (String.mk (List.replicate 999999994 'a')) ⟨⟨[], 0⟩, true⟩).2
        = []) := by
  refine ⟨by decide, ⟨replicate_ne_empty 999999993, jsTrim_replicate _⟩, ?_⟩
  have h := addBook_tooBig ⟨⟨[], 0⟩, true⟩ (String.mk (List.replicate 999999994 'a')) rfl
    (by rw [jsTrim_replicate]; exact replicate_ne_empty 999999993)
    (by rw [jsTrim_replicate, utf8ByteSize_replicate]; decide)
  exact ⟨h.1, by rw [h.2]; rfl⟩

/-- C1, amended: on an open handle, for a store whose sequence counter and
ids are all below the largest rowid, `addBook` with a non-empty title `t` that
is equal to its own trim and whose row is not larger than the engine allows
inserts a row, and `fetchBooks` then yields a list that contains a book whose
title is `t` and whose id is strictly greater than every id that was in the
store before the add, and than the largest id the table has ever assigned. -/
theorem addBook_then_fetchBooks (a : App) (t : String) (hdb : a.db = true)
    (hne : t ≠ "") (htrim : jsTrim t = t)
    (hseq : a.disk.seq < maxRowid) (hids : ∀ b ∈ a.disk.rows, b.id < maxRowid)
    (hsize : t.utf8ByteSize + recordOverhead ≤ maxLength) :
    (addBook t a).1 = .inserted ∧
      ∃ v ∈ fetchBooks (addBook t a).2,
        v.title = t ∧ (∀ b ∈ a.disk.rows, b.id < v.id) ∧ a.disk.seq < v.id := by
  have hne' : jsTrim t ≠ "" := by rw [htrim]; exact hne
  have hroom : max a.disk.seq (maxId a.disk.rows) < maxRowid :=
    Nat.max_lt.mpr ⟨hseq, maxId_lt (by decide) hids⟩
  rw [addBook_of_room hdb hne' hroom (by rw [htrim]; exact hsize), htrim]
  refine ⟨rfl, ⟨a.disk.nextId, t, a.disk.rows.length + 1⟩, ?_, rfl,
    fun b hb => a.disk.lt_nextId hb, a.disk.seq_lt_nextId⟩
  rw [fetchBooks_of_db (by exact hdb)]
  simp [toItems, List.mapIdx_append]

theorem addBook_then_fetchBooks_witness :
    (addBook "Dune" (setupDatabase App.fresh)).1 = .inserted ∧
      ∃ v ∈ fetchBooks (addBook "Dune" (setupDatabase App.fresh)).2,
        v.title = "Dune" ∧ (∀ b ∈ (setupDatabase App.fresh).disk.rows, b.id < v.id) ∧
          (setupDatabase App.fresh).disk.seq < v.id :=
  addBook_then_fetchBooks (setupDatabase App.fresh) "Dune" (by decide) (by decide) (by decide)
    (by decide) (by decide) (by decide)

/-- C2: when the trim of the input text is the empty string, `addBook` ends
with the empty-title alert and the program state, the rows of the store in
particular, is unchanged. -/
theorem addBook_blank (a : App) (text : String) (h : jsTrim text = "") :
    (addBook text a).1 = .emptyTitleAlert ∧ (addBook text a).2 = a ∧
      (addBook text a).2.disk.rows.length = a.disk.rows.length := by
  simp [addBook, h]

theorem addBook_blank_witness :
    jsTrim "" = "" ∧ jsTrim "   " = "" ∧
      ((addBook "   " (setupDatabase App.fresh)).1 = .emptyTitleAlert ∧
        (addBook "   " (setupDatabase App.fresh)).2 = setupDatabase App.fresh ∧
        (addBook "   " (setupDatabase App.fresh)).2.disk.rows.length
          = (setupDatabase App.fresh).disk.rows.length) :=
  ⟨by decide, by decide, addBook_blank (setupDatabase App.fresh) "   " (by decide)⟩

/-- C3: on a store without rows that has ten rowids left, the freshly created
store in particular, `setupDatabase` resolves, and `fetchBooks` after it
returns exactly ten books whose titles are the ten entries of `popularBooks`
in their declared order. -/
theorem setupDatabase_then_fetchBooks (a : App) (h : a.disk.rows = [])
    (hseq : a.disk.seq + 10 ≤ maxRowid) :
    setupResolves a = true ∧
      (fetchBooks (setupDatabase a)).length = 10 ∧
      (fetchBooks (setupDatabase a)).map (·.title) =
        [ "To Kill a Mockingbird", "1984", "Pride and Prejudice", "The Great Gatsby",
          "Moby-Dick", "The Catcher in the Rye", "The Lord of the Rings", "The Hobbit",
          "Harry Potter and the Sorcerer's Stone", "The Da Vinci Code" ] := by
  have hroom : max a.disk.seq (maxId a.disk.rows) + popularBooks.length ≤ maxRowid := by
    rw [h]
    simpa [maxId, popularBooks] using hseq
  obtain ⟨h₀, added, h₁, h₂⟩ := insertEach_of_room popularBooks a.disk seed_size hroom
  have key : (fetchBooks (setupDatabase a)).map (·.title) = popularBooks := by
    rw [setupDatabase_of_empty h, fetchBooks_of_db rfl, map_title_toItems]
    simp only []
    rw [h₁, h, List.nil_append, h₂]
  refine ⟨by simp [setupResolves, h, h₀], ?_, key⟩
  have := congrArg List.length key
  rw [List.length_map] at this
  rw [this]
  rfl

theorem setupDatabase_then_fetchBooks_witness :
    App.fresh.disk.rows = [] ∧
      (setupResolves App.fresh = true ∧
        (fetchBooks (setupDatabase App.fresh)).length = 10 ∧
        (fetchBooks (setupDatabase App.fresh)).map (·.title) =
          [ "To Kill a Mockingbird", "1984", "Pride and Prejudice", "The Great Gatsby",
            "Moby-Dick", "The Catcher in the Rye", "The Lord of the Rings", "The Hobbit",
            "Harry Potter and the Sorcerer's Stone", "The Da Vinci Code" ]) :=
  ⟨rfl, setupDatabase_then_fetchBooks App.fresh rfl (by decide)⟩

/-- C4: `setupDatabase` on a store that holds at least one row leaves the rows
and the sequence counter unchanged, so the row count is the same and the
titles are the same list; and running `setupDatabase` twice from a store
without rows gives the same state as running it once. -/
theorem setupDatabase_idempotent (a : App) (h : a.disk.rows ≠ []) :
    (setupDatabase a).disk = a.disk ∧
      (setupDatabase a).disk.rows.length = a.disk.rows.length ∧
      (setupDatabase a).disk.rows.map (·.title) = a.disk.rows.map (·.title) ∧
      ∀ e : App, e.disk.rows = [] → setupDatabase (setupDatabase e) = setupDatabase e := by
  have h₁ : (setupDatabase a).disk = a.disk := by rw [setupDatabase_of_nonempty h]
  refine ⟨h₁, by rw [h₁], by rw [h₁], fun e he => ?_⟩
  by_cases hs : (setupDatabase e).disk.rows = []
  · have hd : (setupDatabase e).disk = e.disk := by
      rw [setupDatabase_of_empty he] at hs ⊢
      exact insertEach_rows_nil popularBooks e.disk hs
    rw [setupDatabase_of_empty hs, hd, setupDatabase_of_empty he]
  · rw [setupDatabase_of_nonempty hs]
    rw [setupDatabase_of_empty he]

theorem setupDatabase_idempotent_witness :
    (setupDatabase App.fresh).disk.rows ≠ [] ∧
      ((setupDatabase (setupDatabase App.fresh)).disk = (setupDatabase App.fresh).disk ∧
        (setupDatabase (setupDatabase App.fresh)).disk.rows.length
          = (setupDatabase App.fresh).disk.rows.length ∧
        (setupDatabase (setupDatabase App.fresh)).disk.rows.map (·.title)
          = (setupDatabase App.fresh).disk.rows.map (·.title) ∧
        ∀ e : App, e.disk.rows = [] → setupDatabase (setupDatabase e) = setupDatabase e) :=
  ⟨by decide, setupDatabase_idempotent (setupDatabase App.fresh) (by decide)⟩

/-- C5, as stated, fails.  On the seeded store the query "9_4" is a
substring of no stored title and `searchBooks` shows the row of "1984"; the
query "K" is a substring of exactly one stored title and `searchBooks` shows
two rows; the query made of "Dick", U+0000 and "zzz" is a substring of no
stored title and `searchBooks` shows the row of "Moby-Dick"; the query of 49999
letters `a` is a substring of no stored title and `searchBooks` is rejected,
its pattern being too long.  On the store of the one title "x", U+FFFD, "y"
the query U+FFFE is a substring of no stored title and `searchBooks` shows the
row. -/
theorem searchBooks_not_substring :
    ((searchBooks "9_4" (setupDatabase App.fresh) = .shown [⟨2, "1984", 1⟩] ∧
        (setupDatabase App.fresh).disk.rows.filter (fun b => decide (Contains b.title "9_4"))
          = []) ∧
      (searchBooks "K" (setupDatabase App.fresh)
          = .shown [⟨1, "To Kill a Mockingbird", 1⟩, ⟨5, "Moby-Dick", 2⟩] ∧
        (setupDatabase App.fresh).disk.rows.filter (fun b => decide (Contains b.title "K"))
          = [⟨1, "To Kill a Mockingbird"⟩])) ∧
    ((searchBooks (String.mk ['D', 'i', 'c', 'k', Char.ofNat 0, 'z', 'z', 'z'])
          (setupDatabase App.fresh) = .shown [⟨5, "Moby-Dick", 1⟩] ∧
        (setupDatabase App.fresh).disk.rows.filter (fun b => decide
          (Contains b.title (String.mk ['D', 'i', 'c', 'k', Char.ofNat 0, 'z', 'z', 'z']))) = []) ∧
      (searchBooks (String.mk [Char.ofNat 0xFFFE])
          ⟨⟨[⟨1, String.mk ['x', Char.ofNat 0xFFFD, 'y']⟩], 1⟩, true⟩
          = .shown [⟨1, String.mk ['x', Char.ofNat 0xFFFD, 'y'], 1⟩] ∧
        ¬ Contains (String.mk ['x', Char.ofNat 0xFFFD, 'y']) (String.mk [Char.ofNat 0xFFFE]))) ∧
    searchBooks (String.mk (List.replicate 49999 'a')) (setupDatabase App.fresh)
      = .rejected .likePattern := by
  refine ⟨by decide, by decide, ?_⟩
  exact searchBooks_long (setupDatabase App.fresh) (String.mk (List.replicate 49999 'a'))
    (by decide) (replicate_ne_empty 49998) (by decide)
    (by rw [utf8ByteSize_replicate]; decide) (by rw [utf8ByteSize_replicate]; decide)

/-- C5, amended: on an open handle, for every store and every non-empty query
`q` whose pattern is within the pattern limit and that has none of `%`, `_`,
U+0000, U+FFFE and U+FFFF, `searchBooks q` shows exactly the stored rows whose
title, as the matcher reads it, contains `q` as a substring up to the case of
the ASCII letters, in the stored order (ascending ids on a store in rowid
order), numbered from 1; so it shows one book when exactly one stored row has
such a title, and the empty list when none has.  A title without U+0000,
U+FFFE and U+FFFF is read as it is. -/
theorem searchBooks_wildcardFree (a : App) (q : String) (hdb : a.db = true) (hq : q ≠ "")
    (hw : WildcardFree q) (hr : ReadAsIs q) (hlen : q.utf8ByteSize + 2 ≤ likePatternLimit) :
    searchBooks q a = .shown
        (toItems (a.disk.rows.filter fun b =>
          decide (ContainsIgnoringCase (asRead b.title) q))) ∧
      (a.disk.Ordered →
        (toItems (a.disk.rows.filter fun b =>
          decide (ContainsIgnoringCase (asRead b.title) q))).Pairwise
          (fun u v => u.id < v.id)) ∧
      (∀ b : Book,
        a.disk.rows.filter (fun c => decide (ContainsIgnoringCase (asRead c.title) q)) = [b] →
        searchBooks q a = .shown [⟨b.id, b.title, 1⟩]) ∧
      ((∀ b ∈ a.disk.rows, ¬ ContainsIgnoringCase (asRead b.title) q) →
        searchBooks q a = .shown []) ∧
      ((∀ b ∈ a.disk.rows, ReadAsIs b.title) →
        searchBooks q a = .shown
          (toItems (a.disk.rows.filter fun b => decide (ContainsIgnoringCase b.title q)))) := by
  have hsz : ("%" ++ q ++ "%").utf8ByteSize ≤ likePatternLimit := by
    rw [pattern_size]; exact hlen
  have hbind : ¬ maxLength < ("%" ++ q ++ "%").utf8ByteSize := by
    have : likePatternLimit ≤ maxLength := by decide
    omega
  have hf : (a.disk.rows.filter fun row =>
        likeMatch (likeText ("%" ++ q ++ "%").data) (likeText row.title.data)) =
      a.disk.rows.filter fun b => decide (ContainsIgnoringCase (asRead b.title) q) := by
    apply List.filter_congr
    intro b _
    rw [Bool.eq_iff_iff, like_iff_containsIgnoringCase hw hr, decide_eq_true_iff]
  have main : searchBooks q a = .shown
      (toItems (a.disk.rows.filter fun b =>
        decide (ContainsIgnoringCase (asRead b.title) q))) := by
    unfold searchBooks Store.selectLike
    rw [if_neg hq, hdb, if_neg (by simp), if_neg hbind, scanLike_of_limit hsz, hf]
  refine ⟨main, ?_, ?_, ?_, ?_⟩
  · intro hord
    have hsub : (a.disk.rows.filter fun b =>
        decide (ContainsIgnoringCase (asRead b.title) q)).Pairwise
        (fun (b c : Book) => b.id < c.id) := List.Pairwise.sublist (List.filter_sublist _) hord
    rw [← map_book_toItems (a.disk.rows.filter _), List.pairwise_map] at hsub
    exact hsub
  · intro b hb
    rw [main, hb]
    rfl
  · intro hnone
    rw [main, List.filter_eq_nil_iff.mpr (fun b hb => by simpa using hnone b hb)]
    rfl
  · intro hplain
    rw [main]
    congr 2
    apply List.filter_congr
    intro b hb
    rw [asRead_of_readAsIs (hplain b hb)]

theorem searchBooks_wildcardFree_witness :
    searchBooks "K" (setupDatabase App.fresh) = .shown
        (toItems ((setupDatabase App.fresh).disk.rows.filter fun b =>
          decide (ContainsIgnoringCase (asRead b.title) "K"))) ∧
      ((setupDatabase App.fresh).disk.Ordered →
        (toItems ((setupDatabase App.fresh).disk.rows.filter fun b =>
          decide (ContainsIgnoringCase (asRead b.title) "K"))).Pairwise
          (fun u v => u.id < v.id)) ∧
      (∀ b : Book,
        (setupDatabase App.fresh).disk.rows.filter
          (fun c => decide (ContainsIgnoringCase (asRead c.title) "K")) = [b] →
        searchBooks "K" (setupDatabase App.fresh) = .shown [⟨b.id, b.title, 1⟩]) ∧
      ((∀ b ∈ (setupDatabase App.fresh).disk.rows, ¬ ContainsIgnoringCase (asRead b.title) "K") →
        searchBooks "K" (setupDatabase App.fresh) = .shown []) ∧
      ((∀ b ∈ (setupDatabase App.fresh).disk.rows, ReadAsIs b.title) →
        searchBooks "K" (setupDatabase App.fresh) = .shown
          (toItems ((setupDatabase App.fresh).disk.rows.filter fun b =>
            decide (ContainsIgnoringCase b.title "K")))) :=
  searchBooks_wildcardFree (setupDatabase App.fresh) "K" (by decide) (by decide) (by decide)
    (by decide) (by decide)

/-- C6: for every program state, `searchBooks` on the empty query shows the
empty list; the result does not depend on the store or on the handle, and it
is not the full list. -/
theorem searchBooks_empty_query (a : App) : searchBooks "" a = .shown [] := by
  simp [searchBooks]

/-- C7: on an open handle and a store in rowid order, `fetchBooks` returns
every stored row, once each and in the stored order, with its stored id and
title; the ids are strictly ascending; and the index of the element at 0-based
position `i` is `i + 1`, so the indices are exactly `1..n` for `n` rows. -/
theorem fetchBooks_all_rows (a : App) (hdb : a.db = true) (hord : a.disk.Ordered) :
    (fetchBooks a).map (fun v => ({ id := v.id, title := v.title } : Book)) = a.disk.rows ∧
      (fetchBooks a).Pairwise (fun u v => u.id < v.id) ∧
      (∀ (i : Nat) (h : i < (fetchBooks a).length), ((fetchBooks a)[i]).index = i + 1) ∧
      (fetchBooks a).map (·.index) = List.range' 1 a.disk.rows.length := by
  rw [fetchBooks_of_db hdb]
  refine ⟨map_book_toItems _, ?_, ?_, map_index_toItems _⟩
  · have h := map_book_toItems a.disk.rows
    have hp : ((toItems a.disk.rows).map
        (fun v => ({ id := v.id, title := v.title } : Book))).Pairwise
        (fun b c => b.id < c.id) := by rw [h]; exact hord
    rw [List.pairwise_map] at hp
    exact hp
  · intro i h
    simp [toItems]

theorem fetchBooks_all_rows_witness :
    (fetchBooks ⟨⟨[⟨3, "b"⟩, ⟨7, "a"⟩], 9⟩, true⟩).map
        (fun v => ({ id := v.id, title := v.title } : Book)) = [⟨3, "b"⟩, ⟨7, "a"⟩] ∧
      (fetchBooks ⟨⟨[⟨3, "b"⟩, ⟨7, "a"⟩], 9⟩, true⟩).Pairwise (fun u v => u.id < v.id) ∧
      (∀ (i : Nat) (h : i < (fetchBooks ⟨⟨[⟨3, "b"⟩, ⟨7, "a"⟩], 9⟩, true⟩).length),
        ((fetchBooks ⟨⟨[⟨3, "b"⟩, ⟨7, "a"⟩], 9⟩, true⟩)[i]).index = i + 1) ∧
      (fetchBooks ⟨⟨[⟨3, "b"⟩, ⟨7, "a"⟩], 9⟩, true⟩).map (·.index) = List.range' 1 2 :=
  fetchBooks_all_rows ⟨⟨[⟨3, "b"⟩, ⟨7, "a"⟩], 9⟩, true⟩ rfl (by decide)

/-- C8: on the seeded store, `searchBooks "198"` shows exactly one book,
titled "1984"; after `addBook "1984 Reloaded"`, `searchBooks "1984"` shows
exactly two books, "1984" and then "1984 Reloaded". -/
theorem scenario_1984 :
    searchBooks "198" (setupDatabase App.fresh) = .shown [⟨2, "1984", 1⟩] ∧
      (addBook "1984 Reloaded" (setupDatabase App.fresh)).1 = .inserted ∧
      searchBooks "1984" (addBook "1984 Reloaded" (setupDatabase App.fresh)).2
        = .shown [⟨2, "1984", 1⟩, ⟨11, "1984 Reloaded", 2⟩] := by
  decide

/-- C9: for every operation of the program and every store whose ids are
pairwise distinct, the rows before the operation are the first rows after it,
in the same order, so every row is still present with its id and its title,
and the ids are still pairwise distinct; `fetchBooks` and `searchBooks` leave
the program state unchanged. -/
theorem store_append_only (op : Op) (a : App) (h : (a.disk.rows.map (·.id)).Nodup) :
    a.disk.rows <+: (op.run a).disk.rows ∧
      (∀ b ∈ a.disk.rows, b ∈ (op.run a).disk.rows) ∧
      ((op.run a).disk.rows.map (·.id)).Nodup ∧
      Op.fetchBooks.run a = a ∧ ∀ query : String, (Op.searchBooks query).run a = a := by
  have h₁ : a.disk.rows <+: (op.run a).disk.rows :=
    run_keeps (fun s => a.disk.rows <+: s.rows)
      (fun s s' t _ hs hi => by
        rw [Store.insert_ok hi]
        exact hs.trans (List.prefix_append _ _))
      jsTrim_seed_ne_empty op a (List.prefix_refl _)
  have h₂ : ((op.run a).disk.rows.map (·.id)).Nodup :=
    run_keeps (fun s => (s.rows.map (·.id)).Nodup)
      (fun _ _ _ _ hs hi => Store.insert_nodup hs hi) jsTrim_seed_ne_empty op a h
  exact ⟨h₁, fun b hb => h₁.subset hb, h₂, rfl, fun _ => rfl⟩

theorem store_append_only_witness :
    (setupDatabase App.fresh).disk.rows
        <+: ((Op.addBook "Dune").run (setupDatabase App.fresh)).disk.rows ∧
      (∀ b ∈ (setupDatabase App.fresh).disk.rows,
        b ∈ ((Op.addBook "Dune").run (setupDatabase App.fresh)).disk.rows) ∧
      (((Op.addBook "Dune").run (setupDatabase App.fresh)).disk.rows.map (·.id)).Nodup ∧
      Op.fetchBooks.run (setupDatabase App.fresh) = setupDatabase App.fresh ∧
      ∀ query : String,
        (Op.searchBooks query).run (setupDatabase App.fresh) = setupDatabase App.fresh :=
  store_append_only (Op.addBook "Dune") (setupDatabase App.fresh) (by decide)

/-- C10: in every store reached from the fresh store by a sequence of
operations of the program, with arbitrary input texts, every stored title is
non-empty after trimming. -/
theorem stored_titles_nonblank (ops : List Op) :
    ∀ b ∈ (runAll ops App.fresh).disk.rows, jsTrim b.title ≠ "" :=
  runAll_titlesNonBlank ops (fun _ hb => nomatch hb)

theorem stored_titles_nonblank_witness :
    (⟨11, "Dune"⟩ : Book) ∈
        (runAll [.addBook "x", .setupDatabase, .addBook "   ", .addBook "  Dune "]
          App.fresh).disk.rows ∧
      jsTrim "Dune" ≠ "" :=
  ⟨by decide, stored_titles_nonblank
    [.addBook "x", .setupDatabase, .addBook "   ", .addBook "  Dune "] ⟨11, "Dune"⟩ (by decide)⟩

end BookList
